import Mathlib

/-!
Shallow embedding of the Santoor TV-optimizer recommendation engine
(the utility module exporting `calculateStatus`, `getProtectedChannels`
and `runOptimization`).

Modelling choices:
* JavaScript numbers are modelled as `ℚ`.  The engine only compares
  numbers, multiplies a length by `threshold / 100` and takes `Math.ceil`;
  all of these agree with rational arithmetic on every representable
  input (float subtraction inside the sort comparator is only used for
  its sign, which IEEE semantics preserve exactly).
* The result `Map` is an association list; `Map.set` replaces the value
  of the first matching key in place (keeping its position) and appends
  a new key at the end, exactly like a JS `Map`.
* `Array.prototype.sort` with comparator `(a, b) => b.santoorReach -
  a.santoorReach` is a stable descending sort by `santoorReach`; it is
  modelled with `List.mergeSort` ordered by `reachGE`, which is stable
  in the same sense.
* `Array.prototype.slice(0, e)` with a possibly negative `e` is
  modelled by `jsSliceTo`.
* The string `reason` fields are built from fixed templates; they are
  modelled by the inductive type `Reason`, one constructor per template,
  carrying the interpolated numeric arguments.
-/

open scoped List

inductive Status where
  | INACTIVE
  | OPPORTUNITY
  | MONOPOLY
  | DOMINANT
  | LEADING
  | CLOSE
  | BEHIND
  | CRITICAL
  deriving DecidableEq

inductive Recommendation where
  | INCREASE
  | MAINTAIN
  | ADD
  | DECREASE
  deriving DecidableEq

inductive Priority where
  | HIGH
  | MEDIUM
  | LOW
  deriving DecidableEq

/-- The reason strings of the source, one constructor per template:
`Competitor at X%, Share Y%`, `Gap of X pts, Index Y`,
`Top X% - protected`, `Leading competition`,
`Low reach (X%), reallocate budget`, `Stable performance`. -/
inductive Reason where
  | competitorShare (maxCompReach channelShare : ℚ)
  | gapIndex (gap indexVsCompetition : ℚ)
  | topProtected (threshold : ℚ)
  | leadingCompetition
  | lowReach (santoorReach : ℚ)
  | stablePerformance
  deriving DecidableEq

/-- `ChannelRecord` of the source (`channel`, `genre`, the six numeric
metrics, the optional per-market fields and the optional
`optimizationType`), with JS numbers as `ℚ`. -/
structure ChannelRecord where
  channel : String
  genre : String
  santoorReach : ℚ
  maxCompReach : ℚ
  gap : ℚ
  channelShare : ℚ
  indexVsBaseline : ℚ
  indexVsCompetition : ℚ
  godrejReach : Option ℚ
  luxReach : Option ℚ
  lifebuoyReach : Option ℚ
  mysore_sandalReach : Option ℚ
  atcIndex : Option ℚ
  optimizationType : Option String
  deriving DecidableEq

/-- `OptimizationResult` of the source. -/
structure OptimizationResult where
  channel : String
  recommendation : Recommendation
  priority : Priority
  reason : Reason
  deriving DecidableEq

/-- `filterRelevantChannels` of the source. -/
def filterRelevantChannels (channels : List ChannelRecord) : List ChannelRecord :=
  channels.filter fun ch =>
    decide (1/2 < ch.santoorReach ∨ 1/2 < ch.maxCompReach ∨ 1/10 < ch.channelShare)

/-- `calculateStatus` of the source: the five-branch decision table. -/
def calculateStatus (ch : ChannelRecord) : Status :=
  if ch.santoorReach = 0 ∧ ch.maxCompReach = 0 then Status.INACTIVE
  else if ch.santoorReach = 0 ∧ 2 ≤ ch.maxCompReach ∧ 1 ≤ ch.channelShare then
    Status.OPPORTUNITY
  else if ch.santoorReach = 0 ∧ 0 < ch.maxCompReach then Status.INACTIVE
  else if 0 < ch.santoorReach ∧ ch.maxCompReach = 0 then Status.MONOPOLY
  else if 150 ≤ ch.indexVsCompetition then Status.DOMINANT
  else if 100 ≤ ch.indexVsCompetition then Status.LEADING
  else if 80 ≤ ch.indexVsCompetition then Status.CLOSE
  else if 50 ≤ ch.indexVsCompetition then Status.BEHIND
  else Status.CRITICAL

/-- The sort order of `[...withSantoor].sort((a, b) => b.santoorReach -
a.santoorReach)`: `a` may stay before `b` iff `b.santoorReach ≤
a.santoorReach` (descending, ties keep input order). -/
def reachGE (a b : ChannelRecord) : Bool :=
  decide (b.santoorReach ≤ a.santoorReach)

/-- `channels.filter(ch => ch.santoorReach > 0)` of `getProtectedChannels`. -/
def positiveReach (channels : List ChannelRecord) : List ChannelRecord :=
  channels.filter fun ch => decide (0 < ch.santoorReach)

/-- The stable descending sort of the positive-reach records performed
inside `getProtectedChannels`. -/
def sortedByReach (channels : List ChannelRecord) : List ChannelRecord :=
  List.mergeSort (positiveReach channels) reachGE

/-- `Math.ceil(sorted.length * (threshold / 100))` of `getProtectedChannels`. -/
def protectedCutoff (channels : List ChannelRecord) (threshold : ℚ) : ℤ :=
  ⌈((sortedByReach channels).length : ℚ) * (threshold / 100)⌉

/-- `l.slice(0, e)` of JavaScript: a negative end counts from the end of
the array, a too-large end is clamped to the length. -/
def jsSliceTo {α : Type} (l : List α) (e : ℤ) : List α :=
  if e < 0 then l.take (l.length - e.natAbs) else l.take e.toNat

/-- `getProtectedChannels` of the source. -/
def getProtectedChannels (channels : List ChannelRecord) (threshold : ℚ) : List String :=
  (jsSliceTo (sortedByReach channels) (protectedCutoff channels threshold)).map
    fun ch => ch.channel

/-- `intensity <= 10 ? -3 : intensity <= 20 ? -2 : -1` of `runOptimization`. -/
def gapThresholdOf (intensity : ℚ) : ℚ :=
  if intensity ≤ 10 then -3 else if intensity ≤ 20 then -2 else -1

/-- `intensity <= 10 ? 70 : intensity <= 20 ? 80 : 90` of `runOptimization`. -/
def indexThresholdOf (intensity : ℚ) : ℚ :=
  if intensity ≤ 10 then 70 else if intensity ≤ 20 then 80 else 90

/-- The JS `Map<string, OptimizationResult>` as an association list. -/
def ResultMap : Type := List (String × OptimizationResult)

/-- `Map.prototype.set`: replace the value of an existing key in place,
otherwise append the new entry at the end. -/
def mapSet : List (String × OptimizationResult) → String → OptimizationResult →
    List (String × OptimizationResult)
  | [], k, v => [(k, v)]
  | p :: rest, k, v => if p.1 = k then (k, v) :: rest else p :: mapSet rest k v

/-- `Map.prototype.get` (as an `Option`). -/
def mapGet (m : List (String × OptimizationResult)) (k : String) :
    Option OptimizationResult :=
  (m.find? fun p => decide (p.1 = k)).map Prod.snd

/-- `ch.maxCompReach > 5 ? 'HIGH' : ch.maxCompReach > 3 ? 'MEDIUM' : 'LOW'`
of the ADD branch. -/
def addPriority (maxCompReach : ℚ) : Priority :=
  if 5 < maxCompReach then Priority.HIGH
  else if 3 < maxCompReach then Priority.MEDIUM else Priority.LOW

/-- `ch.gap < -5 ? 'HIGH' : ch.gap < -2 ? 'MEDIUM' : 'LOW'` of the
INCREASE branch. -/
def increasePriority (gap : ℚ) : Priority :=
  if gap < -5 then Priority.HIGH
  else if gap < -2 then Priority.MEDIUM else Priority.LOW

/-- The MAINTAIN reason: `` isProtected ? `Top ${threshold}% - protected` :
'Leading competition' ``. -/
def maintainReason (isProt : Prop) [Decidable isProt] (threshold : ℚ) : Reason :=
  if isProt then Reason.topProtected threshold else Reason.leadingCompetition

/-- The body of the `for (const ch of channels)` loop of
`runOptimization`: `none` when the loop emits no entry for `ch`
(the `continue` for fully inactive channels and the implicit
fall-through when `santoorReach == 0` at the end), otherwise the
`OptimizationResult` stored under `ch.channel`. -/
def evalChannel (prot : List String) (gapT indexT threshold : ℚ)
    (ch : ChannelRecord) : Option OptimizationResult :=
  if ch.santoorReach = 0 ∧ ch.maxCompReach = 0 then none
  else if ch.santoorReach = 0 ∧ 2 ≤ ch.maxCompReach ∧ 1 ≤ ch.channelShare then
    some ⟨ch.channel, Recommendation.ADD, addPriority ch.maxCompReach,
      Reason.competitorShare ch.maxCompReach ch.channelShare⟩
  else if 0 < ch.santoorReach ∧ ch.gap < gapT ∧ ch.indexVsCompetition < indexT then
    some ⟨ch.channel, Recommendation.INCREASE, increasePriority ch.gap,
      Reason.gapIndex ch.gap ch.indexVsCompetition⟩
  else if ch.channel ∈ prot ∨ 100 ≤ ch.indexVsCompetition then
    some ⟨ch.channel, Recommendation.MAINTAIN, Priority.LOW,
      maintainReason (ch.channel ∈ prot) threshold⟩
  else if ch.channel ∉ prot ∧ 0 < ch.santoorReach ∧ ch.santoorReach < 3/2 ∧
      120 < ch.indexVsCompetition then
    some ⟨ch.channel, Recommendation.DECREASE, Priority.LOW,
      Reason.lowReach ch.santoorReach⟩
  else if 0 < ch.santoorReach then
    some ⟨ch.channel, Recommendation.MAINTAIN, Priority.LOW,
      Reason.stablePerformance⟩
  else none

/-- One iteration of the loop of `runOptimization`: `results.set(...)`
when the branch taken emits an entry, otherwise the map is unchanged. -/
def applyChannel (prot : List String) (gapT indexT threshold : ℚ)
    (m : List (String × OptimizationResult)) (ch : ChannelRecord) :
    List (String × OptimizationResult) :=
  match evalChannel prot gapT indexT threshold ch with
  | none => m
  | some r => mapSet m ch.channel r

/-- `runOptimization` of the source. -/
def runOptimization (channels : List ChannelRecord) (intensity threshold : ℚ) :
    List (String × OptimizationResult) :=
  channels.foldl
    (applyChannel (getProtectedChannels channels threshold)
      (gapThresholdOf intensity) (indexThresholdOf intensity) threshold)
    []

/-! ### Concrete records used to instantiate the theorems
Field order: channel, genre, santoorReach, maxCompReach, gap, channelShare,
indexVsBaseline, indexVsCompetition, then the six optional fields. -/

/-- Scenario A: `santoorReach 0`, `maxCompReach 3`, `channelShare 2`. -/
def recA : ChannelRecord :=
  ⟨"A", "GEC", 0, 3, -3, 2, 0, 0, none, none, none, none, none, none⟩

/-- Scenario B: `santoorReach 5`, `gap -6`, `indexVsCompetition 60`. -/
def recB : ChannelRecord :=
  ⟨"B", "GEC", 5, 2, -6, 1, 0, 60, none, none, none, none, none, none⟩

/-- A protected channel with a large negative gap and index 40. -/
def recC : ChannelRecord :=
  ⟨"C", "GEC", 5, 3, -10, 1, 0, 40, none, none, none, none, none, none⟩

/-- A protected channel with index 40 whose gap is above every gap cutoff. -/
def recD : ChannelRecord :=
  ⟨"D", "GEC", 5, 3, 0, 1, 0, 40, none, none, none, none, none, none⟩

/-- A channel with `gap -2` and index 75, between the intensity tiers. -/
def recE : ChannelRecord :=
  ⟨"E", "GEC", 5, 3, -2, 1, 0, 75, none, none, none, none, none, none⟩

/-- A fully inactive channel: `santoorReach 0`, `maxCompReach 0`. -/
def recF : ChannelRecord :=
  ⟨"F", "GEC", 0, 0, 0, 0, 0, 0, none, none, none, none, none, none⟩

/-- Boundary record with `indexVsCompetition 150`. -/
def rec150 : ChannelRecord :=
  ⟨"S150", "GEC", 1, 1, 0, 1, 0, 150, none, none, none, none, none, none⟩

/-- Boundary record with `indexVsCompetition 100`. -/
def rec100 : ChannelRecord :=
  ⟨"S100", "GEC", 1, 1, 0, 1, 0, 100, none, none, none, none, none, none⟩

/-- Boundary record with `indexVsCompetition 80`. -/
def rec80 : ChannelRecord :=
  ⟨"S80", "GEC", 1, 1, 0, 1, 0, 80, none, none, none, none, none, none⟩

/-- Boundary record with `indexVsCompetition 50`. -/
def rec50 : ChannelRecord :=
  ⟨"S50", "GEC", 1, 1, 0, 1, 0, 50, none, none, none, none, none, none⟩

/-- Boundary record with `indexVsCompetition 49`. -/
def rec49 : ChannelRecord :=
  ⟨"S49", "GEC", 1, 1, 0, 1, 0, 49, none, none, none, none, none, none⟩

/-- First demo record for the ranking theorems (`santoorReach 5`). -/
def demo1 : ChannelRecord :=
  ⟨"D1", "GEC", 5, 1, 4, 1, 0, 110, none, none, none, none, none, none⟩

/-- Second demo record for the ranking theorems (`santoorReach 3`). -/
def demo2 : ChannelRecord :=
  ⟨"D2", "GEC", 3, 1, 2, 1, 0, 110, none, none, none, none, none, none⟩

/-! ### Association-list map lemmas -/

lemma mapGet_nil (k : String) : mapGet [] k = none := rfl

lemma mapGet_mapSet_self (m : List (String × OptimizationResult)) (k : String)
    (v : OptimizationResult) : mapGet (mapSet m k v) k = some v := by
  induction m with
  | nil => simp [mapSet, mapGet, List.find?]
  | cons p rest ih =>
    by_cases h : p.1 = k
    · simp [mapSet, h, mapGet, List.find?]
    · simp only [mapSet, if_neg h]
      simpa [mapGet, List.find?, h] using ih

lemma mapGet_mapSet_ne (m : List (String × OptimizationResult)) (k k' : String)
    (v : OptimizationResult) (h : k' ≠ k) :
    mapGet (mapSet m k v) k' = mapGet m k' := by
  have h' : ¬(k = k') := fun hh => h hh.symm
  induction m with
  | nil => simp [mapSet, mapGet, List.find?, h']
  | cons p rest ih =>
    by_cases hp : p.1 = k
    · subst hp
      simp [mapSet, mapGet, List.find?, h']
    · simp only [mapSet, if_neg hp]
      by_cases hp' : p.1 = k'
      · simp [mapGet, List.find?, hp']
      · simpa [mapGet, List.find?, hp'] using ih

lemma mem_keys_mapSet (m : List (String × OptimizationResult)) (k a : String)
    (v : OptimizationResult) :
    a ∈ (mapSet m k v).map Prod.fst ↔ a = k ∨ a ∈ m.map Prod.fst := by
  induction m with
  | nil => simp [mapSet]
  | cons p rest ih =>
    simp only [mapSet]
    by_cases hp : p.1 = k
    · rw [if_pos hp]
      simp only [List.map_cons, List.mem_cons, ← hp]
      tauto
    · rw [if_neg hp]
      simp only [List.map_cons, List.mem_cons, ih]
      tauto

lemma keys_nodup_mapSet (m : List (String × OptimizationResult)) (k : String)
    (v : OptimizationResult) (h : (m.map Prod.fst).Nodup) :
    ((mapSet m k v).map Prod.fst).Nodup := by
  induction m with
  | nil => simp [mapSet]
  | cons p rest ih =>
    simp only [List.map_cons, List.nodup_cons] at h
    by_cases hp : p.1 = k
    · subst hp
      simpa [mapSet, List.nodup_cons] using h
    · simp only [mapSet, if_neg hp, List.map_cons, List.nodup_cons]
      refine ⟨?_, ih h.2⟩
      rw [mem_keys_mapSet]
      push_neg
      exact ⟨hp, h.1⟩

lemma mem_mapSet (m : List (String × OptimizationResult)) (k : String)
    (v : OptimizationResult) (p : String × OptimizationResult)
    (h : p ∈ mapSet m k v) : p = (k, v) ∨ p ∈ m := by
  induction m with
  | nil => simpa [mapSet] using h
  | cons q rest ih =>
    by_cases hq : q.1 = k
    · simp only [mapSet, if_pos hq, List.mem_cons] at h
      rcases h with h | h
      · exact Or.inl h
      · exact Or.inr (List.mem_cons_of_mem _ h)
    · simp only [mapSet, if_neg hq, List.mem_cons] at h
      rcases h with h | h
      · exact Or.inr (by simp [h])
      · rcases ih h with h' | h'
        · exact Or.inl h'
        · exact Or.inr (List.mem_cons_of_mem _ h')

/-! ### Lemmas about the loop body -/

lemma evalChannel_inactive (prot : List String) (gapT indexT t : ℚ)
    (ch : ChannelRecord) (h1 : ch.santoorReach = 0) (h2 : ch.maxCompReach = 0) :
    evalChannel prot gapT indexT t ch = none := by
  unfold evalChannel
  rw [if_pos ⟨h1, h2⟩]

lemma evalChannel_ne_decrease (prot : List String) (gapT indexT t : ℚ)
    (ch : ChannelRecord) (r : OptimizationResult)
    (h : evalChannel prot gapT indexT t ch = some r) :
    r.recommendation ≠ Recommendation.DECREASE := by
  unfold evalChannel at h
  split_ifs at h with h1 h2 h3 h4 h5 h6
  · rw [Option.some.injEq] at h
    rw [← h]
    simp
  · rw [Option.some.injEq] at h
    rw [← h]
    simp
  · rw [Option.some.injEq] at h
    rw [← h]
    simp
  · exfalso
    push_neg at h4
    linarith [h4.2, h5.2.2.2]
  · rw [Option.some.injEq] at h
    rw [← h]
    simp

lemma evalChannel_channel_eq (prot : List String) (gapT indexT t : ℚ)
    (ch : ChannelRecord) (r : OptimizationResult)
    (h : evalChannel prot gapT indexT t ch = some r) : r.channel = ch.channel := by
  unfold evalChannel at h
  split_ifs at h <;> (rw [Option.some.injEq] at h; rw [← h])

/-! ### Lemmas about the result-building fold -/

lemma mapGet_foldl_of_skip (prot : List String) (gapT indexT t : ℚ)
    (chs : List ChannelRecord) (m : List (String × OptimizationResult)) (k : String)
    (h : ∀ c ∈ chs, c.channel = k → evalChannel prot gapT indexT t c = none) :
    mapGet (chs.foldl (applyChannel prot gapT indexT t) m) k = mapGet m k := by
  induction chs generalizing m with
  | nil => rfl
  | cons c rest ih =>
    rw [List.foldl_cons]
    rw [ih (applyChannel prot gapT indexT t m c)
      (fun d hd => h d (List.mem_cons_of_mem _ hd))]
    unfold applyChannel
    cases hE : evalChannel prot gapT indexT t c with
    | none => rfl
    | some r =>
      have hck : ¬c.channel = k := by
        intro hk
        have h0 := h c (List.mem_cons_self c rest) hk
        rw [hE] at h0
        exact Option.noConfusion h0
      exact mapGet_mapSet_ne m c.channel k r (fun hk => hck hk.symm)

lemma mapGet_foldl_of_mem (prot : List String) (gapT indexT t : ℚ)
    (chs : List ChannelRecord) (m : List (String × OptimizationResult))
    (ch : ChannelRecord) (r : OptimizationResult)
    (hnd : (chs.map ChannelRecord.channel).Nodup) (hmem : ch ∈ chs)
    (hE : evalChannel prot gapT indexT t ch = some r) :
    mapGet (chs.foldl (applyChannel prot gapT indexT t) m) ch.channel = some r := by
  induction chs generalizing m with
  | nil => cases hmem
  | cons c rest ih =>
    rw [List.map_cons, List.nodup_cons] at hnd
    rw [List.foldl_cons]
    rcases List.mem_cons.mp hmem with hc | hc
    · subst hc
      have hskip : ∀ d ∈ rest, d.channel = ch.channel →
          evalChannel prot gapT indexT t d = none := by
        intro d hd hdk
        exact absurd (hdk ▸ List.mem_map_of_mem ChannelRecord.channel hd) hnd.1
      rw [mapGet_foldl_of_skip prot gapT indexT t rest _ ch.channel hskip]
      unfold applyChannel
      rw [hE]
      exact mapGet_mapSet_self m ch.channel r
    · exact ih (applyChannel prot gapT indexT t m c) hnd.2 hc

lemma keys_nodup_foldl (prot : List String) (gapT indexT t : ℚ)
    (chs : List ChannelRecord) (m : List (String × OptimizationResult))
    (h : (m.map Prod.fst).Nodup) :
    ((chs.foldl (applyChannel prot gapT indexT t) m).map Prod.fst).Nodup := by
  induction chs generalizing m with
  | nil => exact h
  | cons c rest ih =>
    rw [List.foldl_cons]
    apply ih
    unfold applyChannel
    cases hE : evalChannel prot gapT indexT t c with
    | none => exact h
    | some r => exact keys_nodup_mapSet m c.channel r h

lemma foldl_rec_invariant (prot : List String) (gapT indexT t : ℚ)
    (chs : List ChannelRecord) (m : List (String × OptimizationResult))
    (Q : OptimizationResult → Prop)
    (hstep : ∀ c r, evalChannel prot gapT indexT t c = some r → Q r)
    (hm : ∀ p ∈ m, Q p.2) :
    ∀ p ∈ chs.foldl (applyChannel prot gapT indexT t) m, Q p.2 := by
  induction chs generalizing m with
  | nil => exact hm
  | cons c rest ih =>
    rw [List.foldl_cons]
    apply ih
    unfold applyChannel
    cases hE : evalChannel prot gapT indexT t c with
    | none => exact hm
    | some r =>
      intro p hp
      rcases mem_mapSet m c.channel r p hp with h' | h'
      · rw [h']
        exact hstep c r hE
      · exact hm p h'

/-! ### Lemmas about the protected-channel ranking -/

lemma reachGE_trans : ∀ a b c : ChannelRecord, reachGE a b → reachGE b c → reachGE a c := by
  intro a b c hab hbc
  simp only [reachGE, decide_eq_true_eq] at *
  exact le_trans hbc hab

lemma reachGE_total : ∀ a b : ChannelRecord, reachGE a b || reachGE b a := by
  intro a b
  simp only [reachGE, Bool.or_eq_true, decide_eq_true_eq]
  exact le_total _ _

lemma sortedByReach_perm (chs : List ChannelRecord) :
    sortedByReach chs ~ positiveReach chs :=
  List.mergeSort_perm _ _

lemma sortedByReach_pairwise (chs : List ChannelRecord) :
    (sortedByReach chs).Pairwise fun a b => b.santoorReach ≤ a.santoorReach := by
  have h := List.sorted_mergeSort reachGE_trans reachGE_total (positiveReach chs)
  exact h.imp (by intro a b hab; simpa [reachGE] using hab)

lemma sortedByReach_filter_reach (chs : List ChannelRecord) (v : ℚ) :
    (sortedByReach chs).filter (fun c => decide (c.santoorReach = v)) =
      (positiveReach chs).filter (fun c => decide (c.santoorReach = v)) := by
  have hsub : ((positiveReach chs).filter fun c => decide (c.santoorReach = v)) <+
      sortedByReach chs := by
    apply List.sublist_mergeSort reachGE_trans reachGE_total
    · apply List.pairwise_of_forall_mem_list
      intro a ha b hb
      rw [List.mem_filter] at ha hb
      have hav := of_decide_eq_true ha.2
      have hbv := of_decide_eq_true hb.2
      simp only [reachGE, decide_eq_true_eq]
      rw [hav, hbv]
    · exact List.filter_sublist _
  have hidem : (((positiveReach chs).filter fun c => decide (c.santoorReach = v)).filter
      fun c => decide (c.santoorReach = v)) =
      (positiveReach chs).filter fun c => decide (c.santoorReach = v) := by
    rw [List.filter_filter]
    simp
  have hsub2 : ((positiveReach chs).filter fun c => decide (c.santoorReach = v)) <+
      ((sortedByReach chs).filter fun c => decide (c.santoorReach = v)) := by
    have h2 := hsub.filter fun c => decide (c.santoorReach = v)
    rwa [hidem] at h2
  have hlen : ((sortedByReach chs).filter fun c => decide (c.santoorReach = v)).length =
      ((positiveReach chs).filter fun c => decide (c.santoorReach = v)).length :=
    ((sortedByReach_perm chs).filter _).length_eq
  exact (hsub2.eq_of_length hlen.symm).symm

lemma protectedCutoff_nonneg (chs : List ChannelRecord) (t : ℚ) (h0 : 0 ≤ t) :
    0 ≤ protectedCutoff chs t := by
  unfold protectedCutoff
  apply Int.ceil_nonneg
  exact mul_nonneg (by positivity) (div_nonneg h0 (by norm_num))

lemma protectedCutoff_le_length (chs : List ChannelRecord) (t : ℚ) (h1 : t ≤ 100) :
    protectedCutoff chs t ≤ ((sortedByReach chs).length : ℤ) := by
  unfold protectedCutoff
  rw [Int.ceil_le]
  push_cast
  have hN : (0:ℚ) ≤ ((sortedByReach chs).length : ℚ) := by positivity
  have h2 : ((sortedByReach chs).length : ℚ) * (t/100) ≤
      ((sortedByReach chs).length : ℚ) * 1 := by
    apply mul_le_mul_of_nonneg_left _ hN
    linarith
  linarith

lemma getProtectedChannels_length (chs : List ChannelRecord) (t : ℚ)
    (h0 : 0 ≤ t) (h1 : t ≤ 100) :
    (getProtectedChannels chs t).length = (protectedCutoff chs t).toNat := by
  unfold getProtectedChannels
  rw [List.length_map]
  rw [jsSliceTo, if_neg (not_lt.mpr (protectedCutoff_nonneg chs t h0))]
  rw [List.length_take]
  apply min_eq_left
  rw [Int.toNat_le]
  exact protectedCutoff_le_length chs t h1

lemma jsSliceTo_subset {α : Type} (l : List α) (e : ℤ) : ∀ a ∈ jsSliceTo l e, a ∈ l := by
  intro a ha
  unfold jsSliceTo at ha
  split_ifs at ha <;> exact List.take_subset _ _ ha

lemma mem_getProtectedChannels (chs : List ChannelRecord) (t : ℚ) (n : String)
    (h : n ∈ getProtectedChannels chs t) :
    ∃ c ∈ chs, c.channel = n ∧ 0 < c.santoorReach := by
  unfold getProtectedChannels at h
  rw [List.mem_map] at h
  obtain ⟨c, hc, hcn⟩ := h
  have hc2 : c ∈ sortedByReach chs := jsSliceTo_subset _ _ c hc
  rw [sortedByReach, List.mem_mergeSort] at hc2
  rw [positiveReach, List.mem_filter] at hc2
  exact ⟨c, hc2.1, hcn, of_decide_eq_true hc2.2⟩

lemma protected_record_positive (chs : List ChannelRecord) (t : ℚ) (ch : ChannelRecord)
    (hnd : (chs.map ChannelRecord.channel).Nodup) (hmem : ch ∈ chs)
    (hprot : ch.channel ∈ getProtectedChannels chs t) : 0 < ch.santoorReach := by
  obtain ⟨c, hc, hcn, hcr⟩ := mem_getProtectedChannels chs t ch.channel hprot
  have hce : c = ch := List.inj_on_of_nodup_map hnd hc hmem hcn
  rwa [← hce]

lemma jsSliceTo_of_nonneg {α : Type} (l : List α) (e : ℤ) (h : 0 ≤ e) :
    jsSliceTo l e = l.take e.toNat := by
  unfold jsSliceTo
  rw [if_neg (not_lt.mpr h)]

/-! ### Claim theorems -/

/-- C1: `calculateStatus` is a total function implementing the five-branch
decision table in strict priority order — INACTIVE when both reach values
are zero, OPPORTUNITY when Santoor is absent with `maxCompReach ≥ 2` and
`channelShare ≥ 1`, INACTIVE when Santoor is absent and a competitor is
present but the opportunity thresholds are unmet, MONOPOLY when Santoor is
present and the competitor absent, and otherwise the index buckets
DOMINANT (≥150), LEADING (≥100), CLOSE (≥80), BEHIND (≥50), CRITICAL,
with the boundaries 150, 100, 80, 50 included in the upper bucket. -/
theorem calculateStatus_decision_table (ch : ChannelRecord) :
    (ch.santoorReach = 0 ∧ ch.maxCompReach = 0 →
      calculateStatus ch = Status.INACTIVE) ∧
    (ch.santoorReach = 0 ∧ 2 ≤ ch.maxCompReach ∧ 1 ≤ ch.channelShare →
      calculateStatus ch = Status.OPPORTUNITY) ∧
    (ch.santoorReach = 0 ∧ 0 < ch.maxCompReach ∧
        ¬(2 ≤ ch.maxCompReach ∧ 1 ≤ ch.channelShare) →
      calculateStatus ch = Status.INACTIVE) ∧
    (0 < ch.santoorReach ∧ ch.maxCompReach = 0 →
      calculateStatus ch = Status.MONOPOLY) ∧
    (¬(ch.santoorReach = 0 ∧ ch.maxCompReach = 0) →
     ¬(ch.santoorReach = 0 ∧ 2 ≤ ch.maxCompReach ∧ 1 ≤ ch.channelShare) →
     ¬(ch.santoorReach = 0 ∧ 0 < ch.maxCompReach) →
     ¬(0 < ch.santoorReach ∧ ch.maxCompReach = 0) →
      (150 ≤ ch.indexVsCompetition → calculateStatus ch = Status.DOMINANT) ∧
      (100 ≤ ch.indexVsCompetition → ch.indexVsCompetition < 150 →
        calculateStatus ch = Status.LEADING) ∧
      (80 ≤ ch.indexVsCompetition → ch.indexVsCompetition < 100 →
        calculateStatus ch = Status.CLOSE) ∧
      (50 ≤ ch.indexVsCompetition → ch.indexVsCompetition < 80 →
        calculateStatus ch = Status.BEHIND) ∧
      (ch.indexVsCompetition < 50 → calculateStatus ch = Status.CRITICAL)) := by
  unfold calculateStatus
  refine ⟨?_, ?_, ?_, ?_, ?_⟩
  · rintro ⟨h1, h2⟩
    rw [if_pos ⟨h1, h2⟩]
  · rintro ⟨h1, h2, h3⟩
    rw [if_neg (by rintro ⟨-, hc⟩; linarith), if_pos ⟨h1, h2, h3⟩]
  · rintro ⟨h1, h2, h3⟩
    rw [if_neg (by rintro ⟨-, hc⟩; linarith),
      if_neg (by rintro ⟨-, hc, hs⟩; exact h3 ⟨hc, hs⟩), if_pos ⟨h1, h2⟩]
  · rintro ⟨h1, h2⟩
    rw [if_neg (by rintro ⟨hr, -⟩; linarith),
      if_neg (by rintro ⟨hr, -, -⟩; linarith),
      if_neg (by rintro ⟨hr, -⟩; linarith), if_pos ⟨h1, h2⟩]
  · intro hn1 hn2 hn3 hn4
    rw [if_neg hn1, if_neg hn2, if_neg hn3, if_neg hn4]
    refine ⟨?_, ?_, ?_, ?_, ?_⟩
    · intro h
      rw [if_pos h]
    · intro h h'
      rw [if_neg (not_le.mpr h'), if_pos h]
    · intro h h'
      rw [if_neg (by intro hh; linarith), if_neg (not_le.mpr h'), if_pos h]
    · intro h h'
      rw [if_neg (by intro hh; linarith), if_neg (by intro hh; linarith),
        if_neg (not_le.mpr h'), if_pos h]
    · intro h
      rw [if_neg (by intro hh; linarith), if_neg (by intro hh; linarith),
        if_neg (by intro hh; linarith), if_neg (not_le.mpr h)]

/-- Witness for C1: the decision table evaluated at the four index
boundaries 150, 100, 80, 50, one step below, and at an INACTIVE record. -/
theorem calculateStatus_decision_table_witness :
    calculateStatus recF = Status.INACTIVE ∧
    calculateStatus rec150 = Status.DOMINANT ∧
    calculateStatus rec100 = Status.LEADING ∧
    calculateStatus rec80 = Status.CLOSE ∧
    calculateStatus rec50 = Status.BEHIND ∧
    calculateStatus rec49 = Status.CRITICAL :=
  ⟨(calculateStatus_decision_table recF).1 (by decide),
   ((calculateStatus_decision_table rec150).2.2.2.2 (by decide) (by decide)
     (by decide) (by decide)).1 (by decide),
   ((calculateStatus_decision_table rec100).2.2.2.2 (by decide) (by decide)
     (by decide) (by decide)).2.1 (by decide) (by decide),
   ((calculateStatus_decision_table rec80).2.2.2.2 (by decide) (by decide)
     (by decide) (by decide)).2.2.1 (by decide) (by decide),
   ((calculateStatus_decision_table rec50).2.2.2.2 (by decide) (by decide)
     (by decide) (by decide)).2.2.2.1 (by decide) (by decide),
   ((calculateStatus_decision_table rec49).2.2.2.2 (by decide) (by decide)
     (by decide) (by decide)).2.2.2.2 (by decide)⟩

/-- C2: the mapping returned by `runOptimization` has pairwise distinct
keys, and — channel names being unique, as the data model requires — it
holds no entry for a record whose `santoorReach` and `maxCompReach` are
both zero. -/
theorem runOptimization_key_invariants (chs : List ChannelRecord) (i t : ℚ) :
    ((runOptimization chs i t).map Prod.fst).Nodup ∧
    ((chs.map ChannelRecord.channel).Nodup →
      ∀ ch ∈ chs, ch.santoorReach = 0 → ch.maxCompReach = 0 →
        mapGet (runOptimization chs i t) ch.channel = none) := by
  constructor
  · unfold runOptimization
    exact keys_nodup_foldl _ _ _ _ chs [] (by simp)
  · intro hnd ch hmem h1 h2
    unfold runOptimization
    rw [mapGet_foldl_of_skip]
    · rfl
    · intro c hc hck
      have hce : c = ch := List.inj_on_of_nodup_map hnd hc hmem hck
      rw [hce]
      exact evalChannel_inactive _ _ _ _ ch h1 h2

/-- Witness for C2 on a fully inactive record: no entry is emitted. -/
theorem runOptimization_key_invariants_witness :
    ((runOptimization [recF] 15 70).map Prod.fst).Nodup ∧
    mapGet (runOptimization [recF] 15 70) recF.channel = none :=
  ⟨(runOptimization_key_invariants [recF] 15 70).1,
   (runOptimization_key_invariants [recF] 15 70).2 (by decide)
     recF (by decide) (by decide) (by decide)⟩

/-- C5: no entry of the mapping returned by `runOptimization` ever carries
recommendation DECREASE: the DECREASE branch requires
`indexVsCompetition > 120`, but the earlier MAINTAIN branch already
catches every record with `indexVsCompetition ≥ 100` or protected
status, so the branch is unreachable. -/
theorem runOptimization_no_decrease (chs : List ChannelRecord) (i t : ℚ)
    (p : String × OptimizationResult) (hp : p ∈ runOptimization chs i t) :
    p.2.recommendation ≠ Recommendation.DECREASE := by
  unfold runOptimization at hp
  exact foldl_rec_invariant _ _ _ _ chs []
    (fun r => r.recommendation ≠ Recommendation.DECREASE)
    (fun c r hE => evalChannel_ne_decrease _ _ _ _ c r hE)
    (by intro q hq; cases hq) p hp

/-- Witness for C5 at the Scenario A record (an ADD entry). -/
theorem runOptimization_no_decrease_witness :
    ("A", (⟨"A", Recommendation.ADD, Priority.LOW,
        Reason.competitorShare 3 2⟩ : OptimizationResult)) ∈
      runOptimization [recA] 15 70 ∧
    (⟨"A", Recommendation.ADD, Priority.LOW,
        Reason.competitorShare 3 2⟩ : OptimizationResult).recommendation ≠
      Recommendation.DECREASE :=
  ⟨by decide,
   runOptimization_no_decrease [recA] 15 70
     ("A", ⟨"A", Recommendation.ADD, Priority.LOW, Reason.competitorShare 3 2⟩)
     (by decide)⟩

/-- C10: `runOptimization` is deterministic — two invocations on equal
record lists with equal intensity and threshold return equal mappings. -/
theorem runOptimization_deterministic (chs chsB : List ChannelRecord)
    (i iB t tB : ℚ) (h1 : chs = chsB) (h2 : i = iB) (h3 : t = tB) :
    runOptimization chs i t = runOptimization chsB iB tB := by
  subst h1
  subst h2
  subst h3
  rfl

/-- Witness for C10 at the Scenario A input. -/
theorem runOptimization_deterministic_witness :
    runOptimization [recA] 15 70 = runOptimization [recA] 15 70 :=
  runOptimization_deterministic [recA] [recA] 15 15 70 70 rfl rfl rfl

/-- C3 counterexample: `recC` is protected (top 70% of a one-record list)
with `indexVsCompetition = 40`, yet `runOptimization` emits INCREASE, not
MAINTAIN — the INCREASE branch fires before the protected check. -/
theorem protected_increase_counterexample :
    recC.indexVsCompetition = 40 ∧
    "C" ∈ getProtectedChannels [recC] 70 ∧
    mapGet (runOptimization [recC] 5 70) "C" =
      some ⟨"C", Recommendation.INCREASE, Priority.HIGH, Reason.gapIndex (-10) 40⟩ ∧
    (mapGet (runOptimization [recC] 5 70) "C").map (fun r => r.recommendation) ≠
      some Recommendation.MAINTAIN := by
  refine ⟨by decide, ?_, by decide, by decide⟩
  have hs : sortedByReach [recC] = [recC] := by
    apply List.mergeSort_of_sorted
    simp [positiveReach, recC]
  have hc : protectedCutoff [recC] 70 = 1 := by
    rw [protectedCutoff, hs]
    norm_num
    rw [Int.ceil_eq_iff]
    norm_num
  rw [getProtectedChannels, hc, hs]
  simp [jsSliceTo, recC]

/-- C3 (amended): a protected record with `indexVsCompetition = 40` gets
MAINTAIN with the "protected" reason provided its gap is not below the
gap cutoff (otherwise the earlier INCREASE branch fires first: protection
only blocks the demotion branch, not INCREASE). -/
theorem protected_maintain (chs : List ChannelRecord) (i t : ℚ)
    (ch : ChannelRecord)
    (hnd : (chs.map ChannelRecord.channel).Nodup) (hmem : ch ∈ chs)
    (hprot : ch.channel ∈ getProtectedChannels chs t)
    (hidx : ch.indexVsCompetition = 40)
    (hgap : gapThresholdOf i ≤ ch.gap) :
    mapGet (runOptimization chs i t) ch.channel =
      some ⟨ch.channel, Recommendation.MAINTAIN, Priority.LOW,
        Reason.topProtected t⟩ := by
  have hpos : 0 < ch.santoorReach := protected_record_positive chs t ch hnd hmem hprot
  unfold runOptimization
  apply mapGet_foldl_of_mem _ _ _ _ _ _ _ _ hnd hmem
  unfold evalChannel
  rw [if_neg (by rintro ⟨h, -⟩; linarith)]
  rw [if_neg (by rintro ⟨h, -⟩; linarith)]
  rw [if_neg (by rintro ⟨-, hg, -⟩; linarith)]
  rw [if_pos (Or.inl hprot)]
  rw [maintainReason, if_pos hprot]

/-- Witness for C3 (amended): `recD` (protected, index 40, gap 0) gets
MAINTAIN with the protected reason. -/
theorem protected_maintain_witness :
    mapGet (runOptimization [recD] 5 70) recD.channel =
      some ⟨recD.channel, Recommendation.MAINTAIN, Priority.LOW,
        Reason.topProtected 70⟩ :=
  protected_maintain [recD] 5 70 recD (by decide) (by decide)
    (by
      have hs : sortedByReach [recD] = [recD] := by
        apply List.mergeSort_of_sorted
        simp [positiveReach, recD]
      have hc : protectedCutoff [recD] 70 = 1 := by
        rw [protectedCutoff, hs]
        norm_num
        rw [Int.ceil_eq_iff]
        norm_num
      rw [getProtectedChannels, hc, hs]
      simp [jsSliceTo, recD])
    (by decide) (by decide)

/-- C4 counterexample: for the Scenario A record the engine emits ADD with
priority LOW — `maxCompReach = 3` is not `> 3`, so the claimed MEDIUM
priority is wrong (while the OPPORTUNITY status is right). -/
theorem scenarioA_counterexample :
    calculateStatus recA = Status.OPPORTUNITY ∧
    (mapGet (runOptimization [recA] 15 70) "A").map (fun r => r.priority) =
      some Priority.LOW ∧
    some Priority.LOW ≠ some Priority.MEDIUM := by
  refine ⟨by decide, by decide, by decide⟩

/-- C4 (amended): the Scenario A record `{santoorReach 0, maxCompReach 3,
channelShare 2}` has status OPPORTUNITY and, for every intensity and
threshold, gets recommendation ADD with priority LOW (3 is not `> 3`;
the MEDIUM tier needs `maxCompReach > 3`). -/
theorem scenarioA_amended (i t : ℚ) :
    calculateStatus recA = Status.OPPORTUNITY ∧
    mapGet (runOptimization [recA] i t) "A" =
      some ⟨"A", Recommendation.ADD, Priority.LOW, Reason.competitorShare 3 2⟩ := by
  constructor
  · decide
  · have hE : evalChannel (getProtectedChannels [recA] t) (gapThresholdOf i)
        (indexThresholdOf i) t recA =
        some ⟨"A", Recommendation.ADD, Priority.LOW, Reason.competitorShare 3 2⟩ := by
      unfold evalChannel
      rw [if_neg (by decide :
        ¬(recA.santoorReach = 0 ∧ recA.maxCompReach = 0))]
      rw [if_pos (by decide :
        recA.santoorReach = 0 ∧ 2 ≤ recA.maxCompReach ∧ 1 ≤ recA.channelShare)]
      decide
    unfold runOptimization
    rw [List.foldl_cons, List.foldl_nil]
    unfold applyChannel
    rw [hE]
    decide

/-- C6 counterexample: intensity 35 (out of range above) and threshold 95
(out of range) do not fall into the most conservative bucket — the
cutoffs become −1 and 90, the least conservative tier, and the record
`recE` (gap −2, index 75) consequently gets INCREASE, which the
conservative bucket (−3, 70) would not produce since −2 is not below −3. -/
theorem out_of_range_counterexample :
    gapThresholdOf 35 = -1 ∧ indexThresholdOf 35 = 90 ∧
    ¬(gapThresholdOf 35 = -3 ∧ indexThresholdOf 35 = 70) ∧
    (mapGet (runOptimization [recE] 35 95) "E").map (fun r => r.recommendation) =
      some Recommendation.INCREASE ∧
    ¬(recE.gap < -3) := by
  refine ⟨by decide, by decide, by decide, by decide, by decide⟩

/-- C6 (amended): `runOptimization` validates nothing; an intensity below
the documented range falls into the most conservative bucket
(`gapThreshold = −3`, `indexThreshold = 70`), while an intensity above it
falls into the least conservative bucket (−1, 90). -/
theorem out_of_range_intensity_buckets (i : ℚ) :
    (i < 5 → gapThresholdOf i = -3 ∧ indexThresholdOf i = 70) ∧
    (30 < i → gapThresholdOf i = -1 ∧ indexThresholdOf i = 90) := by
  constructor
  · intro h
    constructor
    · unfold gapThresholdOf
      rw [if_pos (by linarith : i ≤ 10)]
    · unfold indexThresholdOf
      rw [if_pos (by linarith : i ≤ 10)]
  · intro h
    constructor
    · unfold gapThresholdOf
      rw [if_neg (by linarith : ¬i ≤ 10), if_neg (by linarith : ¬i ≤ 20)]
    · unfold indexThresholdOf
      rw [if_neg (by linarith : ¬i ≤ 10), if_neg (by linarith : ¬i ≤ 20)]

/-- Witness for C6 (amended) at intensity 0 (below range) and 35 (above). -/
theorem out_of_range_intensity_buckets_witness :
    (gapThresholdOf 0 = -3 ∧ indexThresholdOf 0 = 70) ∧
    (gapThresholdOf 35 = -1 ∧ indexThresholdOf 35 = 90) :=
  ⟨(out_of_range_intensity_buckets 0).1 (by norm_num),
   (out_of_range_intensity_buckets 35).2 (by norm_num)⟩

/-- C9: Scenario B — at intensity 15 the cutoffs are `gapThreshold = −2`
and `indexThreshold = 80`, and the non-protected record `recB`
(reach 5, gap −6, index 60) gets INCREASE with priority HIGH
(its gap is below −5). -/
theorem scenarioB :
    gapThresholdOf 15 = -2 ∧ indexThresholdOf 15 = 80 ∧
    "B" ∉ getProtectedChannels [recB] 0 ∧
    mapGet (runOptimization [recB] 15 0) "B" =
      some ⟨"B", Recommendation.INCREASE, Priority.HIGH, Reason.gapIndex (-6) 60⟩ := by
  refine ⟨by decide, by decide, ?_, by decide⟩
  have hs : sortedByReach [recB] = [recB] := by
    apply List.mergeSort_of_sorted
    simp [positiveReach, recB]
  have hc : protectedCutoff [recB] 0 = 0 := by
    rw [protectedCutoff, hs]
    norm_num
  rw [getProtectedChannels, hc, hs]
  simp [jsSliceTo]

/-- C7: for `0 ≤ threshold ≤ 100`, `getProtectedChannels` returns exactly
the channel names of the first `⌈threshold/100 · N⌉` entries of the
stable descending sort of the records with positive `santoorReach`
(`N` being their count): the cutoff formula holds, the sorted list is a
permutation of the positive-reach records, it is ordered by descending
reach, ties keep input order (the equal-reach subsequences are
unchanged), every selected record's reach dominates every unselected
one, and the edge cases hold — empty input, `threshold = 0` (empty set)
and `threshold = 100` (all positive-reach channels). -/
theorem getProtectedChannels_spec (chs : List ChannelRecord) (t : ℚ)
    (h0 : 0 ≤ t) (h1 : t ≤ 100) :
    getProtectedChannels chs t =
      ((sortedByReach chs).take (protectedCutoff chs t).toNat).map
        ChannelRecord.channel ∧
    (getProtectedChannels chs t).length = (protectedCutoff chs t).toNat ∧
    protectedCutoff chs t = ⌈((positiveReach chs).length : ℚ) * (t / 100)⌉ ∧
    sortedByReach chs ~ positiveReach chs ∧
    (sortedByReach chs).Pairwise (fun a b => b.santoorReach ≤ a.santoorReach) ∧
    (∀ v : ℚ, (sortedByReach chs).filter (fun c => decide (c.santoorReach = v)) =
      (positiveReach chs).filter fun c => decide (c.santoorReach = v)) ∧
    (∀ a ∈ (sortedByReach chs).take (protectedCutoff chs t).toNat,
      ∀ b ∈ (sortedByReach chs).drop (protectedCutoff chs t).toNat,
        b.santoorReach ≤ a.santoorReach) ∧
    (chs = [] → getProtectedChannels chs t = []) ∧
    (t = 0 → getProtectedChannels chs t = []) ∧
    (t = 100 → getProtectedChannels chs t ~
      (positiveReach chs).map ChannelRecord.channel) := by
  refine ⟨?_, getProtectedChannels_length chs t h0 h1, ?_, sortedByReach_perm chs,
    sortedByReach_pairwise chs, sortedByReach_filter_reach chs, ?_, ?_, ?_, ?_⟩
  · rw [getProtectedChannels,
      jsSliceTo_of_nonneg _ _ (protectedCutoff_nonneg chs t h0)]
  · rw [protectedCutoff, (sortedByReach_perm chs).length_eq]
  · intro a ha b hb
    have hp := sortedByReach_pairwise chs
    rw [← List.take_append_drop (protectedCutoff chs t).toNat
      (sortedByReach chs)] at hp
    exact (List.pairwise_append.mp hp).2.2 a ha b hb
  · intro he
    subst he
    have hs : sortedByReach [] = [] := by
      rw [sortedByReach]
      simp [positiveReach]
    rw [getProtectedChannels, hs]
    simp [jsSliceTo]
  · intro ht
    subst ht
    have hc : protectedCutoff chs 0 = 0 := by
      rw [protectedCutoff]
      norm_num
    rw [getProtectedChannels, hc]
    simp [jsSliceTo]
  · intro ht
    subst ht
    have hc : protectedCutoff chs 100 = ((sortedByReach chs).length : ℤ) := by
      rw [protectedCutoff]
      rw [show (100:ℚ)/100 = 1 by norm_num, mul_one]
      exact Int.ceil_natCast _
    rw [getProtectedChannels, jsSliceTo_of_nonneg _ _ (by rw [hc]; positivity), hc]
    rw [Int.toNat_natCast, List.take_length]
    exact (sortedByReach_perm chs).map ChannelRecord.channel

/-- Witness for C7 on a two-record list at threshold 50: the protected
set is the single top channel. -/
theorem getProtectedChannels_spec_witness :
    (getProtectedChannels [demo1, demo2] 50).length =
      (protectedCutoff [demo1, demo2] 50).toNat :=
  (getProtectedChannels_spec [demo1, demo2] 50 (by norm_num) (by norm_num)).2.1

/-- C8: for a fixed record list the protected-set size equals
`⌈threshold/100 · N⌉` (`N` the number of records with positive
`santoorReach`) and is monotonically non-decreasing in the threshold
over `[0, 100]`. -/
theorem getProtectedChannels_size_mono (chs : List ChannelRecord) (t1 t2 : ℚ)
    (h0 : 0 ≤ t1) (h12 : t1 ≤ t2) (h2 : t2 ≤ 100) :
    (getProtectedChannels chs t1).length =
      (⌈((positiveReach chs).length : ℚ) * (t1 / 100)⌉).toNat ∧
    (getProtectedChannels chs t1).length ≤ (getProtectedChannels chs t2).length := by
  have h01 : t1 ≤ 100 := le_trans h12 h2
  have h02 : 0 ≤ t2 := le_trans h0 h12
  constructor
  · rw [getProtectedChannels_length chs t1 h0 h01, protectedCutoff,
      (sortedByReach_perm chs).length_eq]
  · rw [getProtectedChannels_length chs t1 h0 h01,
      getProtectedChannels_length chs t2 h02 h2]
    apply Int.toNat_le_toNat
    unfold protectedCutoff
    apply Int.ceil_le_ceil
    apply mul_le_mul_of_nonneg_left _ (by positivity)
    linarith

/-- Witness for C8 on a two-record list between thresholds 50 and 100. -/
theorem getProtectedChannels_size_mono_witness :
    (getProtectedChannels [demo1, demo2] 50).length ≤
      (getProtectedChannels [demo1, demo2] 100).length :=
  (getProtectedChannels_size_mono [demo1, demo2] 50 100 (by norm_num)
    (by norm_num) (by norm_num)).2
